import Mathlib

/-!
Shallow embedding of the MySQL export orchestration code in
`application/library/dbmanager/driver/mysql/mysql_export.go` (package `mysql`
of the nging repository), together with theorems settling the frozen claims
about it.

The embedding models:
 * the host/port split of `Export` (lines 108-116);
 * the validation, argument building and per-pass subprocess handling of the
   package-level `Export` function (lines 96-223), with the outcomes of the
   external world (directory stat, file creation, pipe, spawn, copy, wait)
   supplied as explicit boolean environments and the side effects recorded
   as an explicit trace;
 * the `AUTO_INCREMENT=` stripping regex `cleanRegExp` and
   `ResetAutoIncrement` (lines 61, 226-233) as a character-level scanner with
   the exact leftmost, greedy semantics of Go's `regexp.ReplaceAll` for the
   pattern ` AUTO_INCREMENT=[0-9]*\s*` with replacement `" "`;
 * the method `(*mySQL).Export` (lines 245-413): cache-key material,
   duplicate-job rejection against the shared `backgrounds` registry, writer
   selection per output mode, and the worker closure with archival
   finalization (lines 336-384).
-/

set_option maxRecDepth 4000

namespace NgingExport

/-! ## Go `\s` and `[0-9]` character classes (RE2, ASCII) -/

/-- RE2 `\s` character class: `[\t\n\f\r ]`. -/
def isGoSpace (c : Char) : Bool :=
  c = ' ' || c = '\t' || c = '\n' || c = '\r' || c = Char.ofNat 12

/-- RE2 `[0-9]` character class. -/
def isGoDigit (c : Char) : Bool :=
  '0' ≤ c && c ≤ '9'

/-! ## `cleanRegExp` / `ResetAutoIncrement` (lines 61, 226-233)

`cleanRegExp = regexp.MustCompile(` ` AUTO_INCREMENT=[0-9]*\s*` `)` and
`ResetAutoIncrement` rewrites a structure file with
`cleanRegExp.ReplaceAll(b, []byte(" "))`.  `ReplaceAll` scans left to right,
replaces each leftmost non-overlapping match, and does not rescan
replacements.  For this pattern a match at a position is: the literal
` AUTO_INCREMENT=` (16 characters), then a maximal run of digits, then a
maximal run of `\s` characters (greedy, no alternation, so no backtracking).
-/

/-- The literal `AUTO_INCREMENT=` (15 characters). -/
def acPat : List Char := "AUTO_INCREMENT=".toList

/-- The literal ` AUTO_INCREMENT=` (16 characters), the fixed prefix of every
match of `cleanRegExp`. -/
def acSpat : List Char := " AUTO_INCREMENT=".toList

/-- Attempt to match `cleanRegExp` at the head of `s`; on success return the
remainder of `s` after the match (literal prefix, then maximal digit run,
then maximal whitespace run). -/
def tryMatch (s : List Char) : Option (List Char) :=
  if acSpat.isPrefixOf s then
    some (((s.drop 16).dropWhile isGoDigit).dropWhile isGoSpace)
  else none

/-- Fuelled scanner for `cleanRegExp.ReplaceAll(s, " ")`: at each position,
replace a leftmost match by a single space and continue after it, otherwise
copy one character.  The fuel only serves termination; `stripAuto` supplies
enough. -/
def stripFuel : Nat → List Char → List Char
  | 0, s => s
  | Nat.succ n, s =>
    match s with
    | [] => []
    | c :: rest =>
      match tryMatch (c :: rest) with
      | some rem => ' ' :: stripFuel n rem
      | none => c :: stripFuel n rest

/-- `cleanRegExp.ReplaceAll(s, []byte(" "))` — the transform applied by
`ResetAutoIncrement` to the structure dump. -/
def stripAuto (s : List Char) : List Char := stripFuel s.length s

/-- Number of positions of `s` at which the literal `AUTO_INCREMENT=`
occurs. -/
def occCount : List Char → Nat
  | [] => 0
  | c :: rest => (if acPat.isPrefixOf (c :: rest) then 1 else 0) + occCount rest

/-! ## Host/port split (lines 108-116)

```go
if p := strings.LastIndex(cfg.Host, `:`); p > 0 {
    host = cfg.Host[0:p]
    port = cfg.Host[p+1:]
} else {
    host = cfg.Host
}
if len(port) == 0 {
    port = `3306`
}
```
-/

/-- `strings.LastIndex(l, ":")` accumulator: `i` is the index of the head of
the remaining list, `acc` the last index of `:` seen so far (`-1` if none). -/
def lastIndexColonAux : List Char → Nat → Int → Int
  | [], _, acc => acc
  | c :: rest, i, acc => lastIndexColonAux rest (i + 1) (if c = ':' then (i : Int) else acc)

/-- `strings.LastIndex(l, ":")`: index of the last colon, `-1` if absent. -/
def lastIndexColon (l : List Char) : Int := lastIndexColonAux l 0 (-1)

/-- The host/port derivation of `Export` on the configured host string
(character-level; the colon is ASCII so byte and character indices select
the same split). -/
def hostPortOfL (l : List Char) : List Char × List Char :=
  let p := lastIndexColon l
  let hp : List Char × List Char :=
    if 0 < p then (l.take p.toNat, l.drop (p.toNat + 1)) else (l, [])
  if hp.2 = [] then (hp.1, "3306".toList) else hp

/-- String-level wrapper of `hostPortOfL`. -/
def hostPortOf (s : String) : String × String :=
  let r := hostPortOfL s.toList
  (String.mk r.1, String.mk r.2)

/-! ## The package-level `Export` function (lines 96-223) -/

/-- The fields of `driver.DbAuth` consumed by `Export`. -/
structure DbAuth where
  Host : String
  Username : String
  Password : String
  Db : String
  Charset : String
  deriving DecidableEq, Repr

/-- Modelled from the spec: the fixed recognized-charset allow-list
(`Charsets`), whose definition lives in the driver file that is not among
the provided sources.  The claims depend only on membership in a fixed
list; the concrete members here are illustrative. -/
def Charsets : List String := ["big5", "gbk", "gb2312", "latin1", "utf8", "utf8mb4"]

/-- A writer argument of `Export` (`structWriter` / `dataWriter`): either an
`io.Writer` stream (with a flag telling whether the dynamic type also
implements `io.Closer`) or a file path (`string`), for which `Export` opens
the file itself (an `*os.File`, always closable). -/
inductive WriterKind
  | stream (closable : Bool)
  | path (p : String)
  deriving DecidableEq, Repr

/-- Whether `clean` (lines 137-141) actually closes this writer: it type
asserts `io.Closer`. -/
def closable : WriterKind → Bool
  | .stream c => c
  | .path _ => true

/-- Outcomes of the external world for one dump pass. -/
structure PassEnv where
  /-- `os.Stat(dir)` reports the parent directory as missing. -/
  dirMissing : Bool
  /-- `os.MkdirAll` succeeds. -/
  mkdirOk : Bool
  /-- `os.Create` succeeds. -/
  createOk : Bool
  /-- `cmd.StdoutPipe()` succeeds. -/
  pipeOk : Bool
  /-- `cmd.Start()` succeeds. -/
  startOk : Bool
  /-- `io.Copy(w, stdout)` succeeds. -/
  copyOk : Bool
  /-- `cmd.Wait()` reports exit code zero. -/
  waitOk : Bool
  /-- `ResetAutoIncrement` succeeds. -/
  resetOk : Bool
  deriving DecidableEq, Repr

/-- An environment in which every external step succeeds and the save
directory already exists. -/
def allOk : PassEnv :=
  { dirMissing := false, mkdirOk := true, createOk := true, pipeOk := true,
    startOk := true, copyOk := true, waitOk := true, resetOk := true }

/-- Observable side effects of `Export`. -/
inductive AEffect
  | mkdirAllEff (dir : String)
  | createFileEff (p : String)
  | spawnEff (args : List String)
  | closeWriterEff
  | closeStdoutEff
  | resetAIEff (p : String)
  deriving DecidableEq, Repr

/-- Effects of `clean(w)`: close the writer iff it is an `io.Closer`. -/
def cleanW (w : WriterKind) : List AEffect :=
  if closable w then [AEffect.closeWriterEff] else []

/-- Whether writer resolution (lines 167-193) succeeds for this writer in
this environment, i.e. the pass reaches the pipe/spawn/copy/wait stages:
streams always resolve; a file path resolves when the parent directory
exists or is created and `os.Create` succeeds. -/
def resolves (w : WriterKind) (env : PassEnv) : Bool :=
  match w with
  | .stream _ => true
  | .path _ => (!env.dirMissing || env.mkdirOk) && env.createOk

/-- One iteration of the writer loop of `Export` (lines 152-221): resolve the
writer, create the stdout pipe, start the subprocess, copy, wait, close, and
run the `onFinish` hook (auto-increment reset, first pass with a file writer
only).  Returns the Go error (if any) and the ordered effect trace. -/
def runPass (args : List String) (w : WriterKind) (env : PassEnv)
    (resetAI : Bool) (isStructPass : Bool) : Except String Unit × List AEffect :=
  -- writer resolution (lines 167-193)
  let resolved : Bool × List AEffect × Option String :=
    match w with
    | .stream _ => (true, [], none)
    | .path p =>
      if env.dirMissing && !env.mkdirOk then (false, [], none)
      else
        let mk : List AEffect := if env.dirMissing then [AEffect.mkdirAllEff p] else []
        if !env.createOk then (false, mk, none)
        else (true, mk ++ [AEffect.createFileEff p], some p)
  match resolved with
  | (false, effs, _) => (Except.error "Failed to backup", effs)
  | (true, effs, onFinishPath) =>
    let cl := cleanW w
    if !env.pipeOk then
      -- line 196: clean(w); return
      (Except.error "Failed to backup", effs ++ cl)
    else if !env.startOk then
      -- lines 200-201: stdout.Close(); clean(w); return (process never started)
      (Except.error "Failed to backup", effs ++ [AEffect.closeStdoutEff] ++ cl)
    else if !env.copyOk then
      -- lines 205-207: stdout.Close(); clean(w); return
      (Except.error "Failed to backup",
        effs ++ [AEffect.spawnEff args, AEffect.closeStdoutEff] ++ cl)
    else if !env.waitOk then
      -- lines 210-212: stdout.Close(); clean(w); return err + stderr tail
      (Except.error "mysqldump exited nonzero",
        effs ++ [AEffect.spawnEff args, AEffect.closeStdoutEff] ++ cl)
    else
      -- lines 214-220: clean(w); stdout.Close(); onFinish()
      let base := effs ++ [AEffect.spawnEff args] ++ cl ++ [AEffect.closeStdoutEff]
      match onFinishPath with
      | some p =>
        if isStructPass && resetAI then
          if env.resetOk then (Except.ok (), base ++ [AEffect.resetAIEff p])
          else (Except.error "reset failed", base ++ [AEffect.resetAIEff p])
        else (Except.ok (), base)
      | none => (Except.ok (), base)

/-- The fixed argument template of `Export` (lines 120-136): character set,
single-transaction, GTID purge off, autocommit off, `--opt`, the mutable
structure/data flag (initially `-d`), host, port, user, password, database. -/
def baseArgs (cfg : DbAuth) (host port : String) : List String :=
  ["--default-character-set=" ++ cfg.Charset,
   "--single-transaction",
   "--set-gtid-purged=OFF",
   "--no-autocommit",
   "--opt",
   "-d",
   "-h" ++ host,
   "-P" ++ port,
   "-u" ++ cfg.Username,
   "-p" ++ cfg.Password,
   cfg.Db]

/-- The index-scan of lines 142-148: first index holding `-d`, `0` when no
element matches (the Go variable keeps its zero value). -/
def typeOptIdxAux : List String → Nat → Nat
  | [], _ => 0
  | v :: rest, i => if v = "-d" then i else typeOptIdxAux rest (i + 1)

/-- `typeOptIndex` as computed by `Export` over the pre-append argument
list. -/
def typeOptIdx (args : List String) : Nat := typeOptIdxAux args 0

/-- Environments for the (up to) two passes. -/
structure ExportEnv where
  pass0 : PassEnv
  pass1 : PassEnv
  deriving DecidableEq, Repr

/-- The package-level `Export` (lines 96-223): validation (empty table list,
charset allow-list), host/port split, argument building, and the sequential
structure/data passes, with the structure/data flag switched to `-t` for the
second loop iteration (`index > 0`). -/
def ExportM (cfg : DbAuth) (tables : List String) (structW dataW : Option WriterKind)
    (resetAI : Bool) (env : ExportEnv) : Except String Unit × List AEffect :=
  if tables = [] then (Except.error "No table selected for export", [])
  else
    let hp := hostPortOf cfg.Host
    if cfg.Charset ∉ Charsets then (Except.error "invalid charset", [])
    else
      let base := baseArgs cfg hp.1 hp.2
      let fullArgs := base ++ tables
      let tIdx := typeOptIdx base
      let a1 := fullArgs.set tIdx "-t"
      match structW, dataW with
      | none, none => (Except.ok (), [])
      | some w0, none => runPass fullArgs w0 env.pass0 resetAI true
      | none, some w1 => runPass a1 w1 env.pass1 resetAI false
      | some w0, some w1 =>
        let r0 := runPass fullArgs w0 env.pass0 resetAI true
        match r0.1 with
        | Except.error e => (Except.error e, r0.2)
        | Except.ok _ =>
          let r1 := runPass a1 w1 env.pass1 resetAI false
          (r1.1, r0.2 ++ r1.2)

/-- The subprocess invocations recorded in a trace, in order. -/
def spawns (tr : List AEffect) : List (List String) :=
  tr.filterMap fun e =>
    match e with
    | AEffect.spawnEff a => some a
    | _ => none

/-! ## The method `(*mySQL).Export` (lines 245-413) -/

/-- JSON encoding of a string (table and type names carry no characters that
JSON escapes). -/
def jsonStr (s : String) : String := "\"" ++ s ++ "\""

/-- JSON encoding of a string list, order preserving. -/
def jsonList (l : List String) : String :=
  "[" ++ String.intercalate "," (l.map jsonStr) ++ "]"

/-- Model of `com.Dump([]interface{}{tables, output, types}, false)`
(line 279): an order-preserving JSON serialization of the triple
(indentation elided).  The code applies `com.Md5`, a deterministic hash from
an external library, to this string to obtain the registry key; the
embedding uses the pre-hash material as the key, so equal materials are
equal keys. -/
def cacheKeyMaterial (tables : List String) (output : String) (types : List String) : String :=
  "[" ++ jsonList tables ++ "," ++ jsonStr output ++ "," ++ jsonList types ++ "]"

/-- The export map stored under `backgrounds[OpExport]`: cache key to the
identity of the `*FileInfos` value. -/
abbrev Registry := List (String × Nat)

/-- Key presence in the map. -/
def hasKey (r : Registry) (k : String) : Bool :=
  r.any fun e => e.1 = k

/-- Map assignment `m[k] = v`. -/
def setReg (r : Registry) (k : String) (v : Nat) : Registry :=
  if hasKey r k then r.map (fun e => if e.1 = k then (k, v) else e) else r ++ [(k, v)]

/-- `delete(m, k)`. -/
def eraseKey (r : Registry) (k : String) : Registry :=
  r.filter fun e => ¬ e.1 = k

/-- External-world outcomes for one `(*mySQL).Export` call. -/
structure BEnv where
  /-- the `Export(...)` call inside the worker succeeds -/
  exportOk : Bool
  /-- `archiver.Zip.Make` succeeds -/
  zipOk : Bool
  deriving DecidableEq, Repr

/-- Observable side effects of the worker closure. -/
inductive MEffect
  | runExportEff (structW dataW : Option WriterKind)
  | zipMakeEff (zipFile : String) (files : List String)
  | removeFileEff (f : String)
  | writeManifestEff (f : String)
  deriving DecidableEq, Repr

deriving instance DecidableEq for Except

/-- Result of the worker closure: the returned error, the export map as the
closure leaves it, and the effect trace. -/
structure WResult where
  ret : Except String Unit
  reg : Registry
  effects : List MEffect
  deriving DecidableEq, Repr

/-- The worker closure (lines 336-384): run `Export`; on failure return the
error.  When file artifacts exist (`len(sqlFiles) > 0`), zip them; on zip
failure return the error (originals kept, manifest not written, registry
entry kept); on success remove the originals, write the manifest sidecar,
and delete the registry entry. -/
def workerM (env : BEnv) (key zipFile : String) (sqlFiles : List String)
    (sw dw : Option WriterKind) (exports : Registry) : WResult :=
  if !env.exportOk then
    { ret := Except.error "export failed", reg := exports,
      effects := [MEffect.runExportEff sw dw] }
  else if sqlFiles = [] then
    { ret := Except.ok (), reg := exports, effects := [MEffect.runExportEff sw dw] }
  else if !env.zipOk then
    { ret := Except.error "zip failed", reg := exports,
      effects := [MEffect.runExportEff sw dw, MEffect.zipMakeEff zipFile sqlFiles] }
  else
    { ret := Except.ok (), reg := eraseKey exports key,
      effects := [MEffect.runExportEff sw dw, MEffect.zipMakeEff zipFile sqlFiles]
        ++ sqlFiles.map MEffect.removeFileEff
        ++ [MEffect.writeManifestEff (zipFile ++ ".txt")] }

/-- Inputs of one `(*mySQL).Export` POST request, after form parsing. -/
structure BInput where
  dbName : String
  tables : List String
  output : String
  types : List String
  nowTime : String
  deriving DecidableEq, Repr

/-- Result of one `(*mySQL).Export` call: return value, the shared
`backgrounds[OpExport]` registry as observable after the call, and the
effect trace. -/
structure BResult where
  ret : Except String Unit
  bg : Option Registry
  effects : List MEffect
  deriving DecidableEq, Repr

/-- The method `(*mySQL).Export` (lines 245-413) for a POST request: database
check, cache key (line 279), duplicate-job rejection (lines 287-289), entry
insertion (line 297), writer selection per output mode (lines 300-333), and
the worker.  `bg` is `backgrounds[OpExport]` before the call (`none` when the
sync map holds no export map yet); when it is `some`, the local `exports`
variable aliases the shared map, so mutations are observable even without a
`Store`.  In the async branch the detached worker is sequenced after the
`Store` of line 409. -/
def mExportM (root : String) (inp : BInput) (env : BEnv) (bg : Option Registry)
    (freshId : Nat) : BResult :=
  if inp.dbName = "" then
    { ret := Except.error "请选择数据库", bg := bg, effects := [] }
  else
    let key := cacheKeyMaterial inp.tables inp.output inp.types
    let exports := bg.getD []
    if hasKey exports key then
      { ret := Except.error "任务正在后台处理中，请稍候...", bg := bg, effects := [] }
    else
      let exports1 := setReg exports key freshId
      let saveDir := root ++ "/dbmanager/cache/export"
      let zipFile := saveDir ++ "/" ++ inp.dbName ++ "-sql-" ++ inp.nowTime ++ ".zip"
      if inp.output = "down" ∨ inp.output = "open" then
        -- inline: writers are m.Response(), sqlFiles stays empty, async = false
        let sw := if "struct" ∈ inp.types then some (WriterKind.stream false) else none
        let dw := if "data" ∈ inp.types then some (WriterKind.stream false) else none
        let w := workerM env key zipFile [] sw dw exports1
        { ret := w.ret, bg := if bg.isSome then some w.reg else none, effects := w.effects }
      else
        -- background: file writers, async = true, ack returned, map stored
        let structFile := saveDir ++ "/" ++ inp.dbName ++ "-struct-" ++ inp.nowTime ++ ".sql"
        let dataFile := saveDir ++ "/" ++ inp.dbName ++ "-data-" ++ inp.nowTime ++ ".sql"
        let sw := if "struct" ∈ inp.types then some (WriterKind.path structFile) else none
        let dw := if "data" ∈ inp.types then some (WriterKind.path dataFile) else none
        let sqlFiles := (if "struct" ∈ inp.types then [structFile] else [])
          ++ (if "data" ∈ inp.types then [dataFile] else [])
        let w := workerM env key zipFile sqlFiles sw dw exports1
        { ret := Except.ok (), bg := some w.reg, effects := w.effects }

/-! ## Theorems -/

/-- C1: `(*mySQL).Export` computes the registry key from the raw,
un-canonicalized table list (line 279): supplying the same tables in a
different order yields different key material, so the fingerprint is not
invariant under permutation of the table list, contrary to the spec's
stated invariant. -/
theorem c1_fingerprint_order_sensitive :
    cacheKeyMaterial ["a", "b"] "down" ["struct"]
      ≠ cacheKeyMaterial ["b", "a"] "down" ["struct"] := by decide

/-- C3: for an empty table list, and for a charset outside the allow-list,
`Export` returns an error with an empty effect trace: no subprocess is
spawned, no file or directory is created, no writer is touched. -/
theorem c3_validation_no_side_effects (cfg : DbAuth) (tables : List String)
    (sw dw : Option WriterKind) (r : Bool) (env : ExportEnv)
    (h : tables = [] ∨ cfg.Charset ∉ Charsets) :
    ∃ e, ExportM cfg tables sw dw r env = (Except.error e, []) := by
  rcases h with h | h
  · exact ⟨"No table selected for export", by simp [ExportM, h]⟩
  · by_cases ht : tables = []
    · exact ⟨"No table selected for export", by simp [ExportM, ht]⟩
    · exact ⟨"invalid charset", by simp [ExportM, ht, h]⟩

/-- Witness for C3 at concrete inputs. -/
theorem c3_witness :
    (∃ e, ExportM ⟨"h", "u", "p", "d", "utf8"⟩ [] none none false ⟨allOk, allOk⟩
      = (Except.error e, [])) ∧
    (∃ e, ExportM ⟨"h", "u", "p", "d", "bogus"⟩ ["t"] none none false ⟨allOk, allOk⟩
      = (Except.error e, [])) :=
  ⟨c3_validation_no_side_effects _ _ _ _ _ _ (Or.inl rfl),
   c3_validation_no_side_effects _ _ _ _ _ _ (Or.inr (by decide))⟩

/-- C4: when the cache key already has an entry in the export map,
`(*mySQL).Export` returns the already-running error, the registry is
returned exactly as it was (no entry modified), and no effect happens (no
subprocess, no writer). -/
theorem c4_duplicate_rejected (root : String) (inp : BInput) (env : BEnv)
    (bg : Option Registry) (fresh : Nat)
    (hdb : inp.dbName ≠ "")
    (h : hasKey (bg.getD []) (cacheKeyMaterial inp.tables inp.output inp.types) = true) :
    mExportM root inp env bg fresh =
      { ret := Except.error "任务正在后台处理中，请稍候...", bg := bg, effects := [] } := by
  simp [mExportM, hdb, h]

/-- Witness for C4 at a concrete registry already holding the key. -/
theorem c4_witness :
    mExportM "/tmp" ⟨"d", ["t"], "down", ["struct"], "1"⟩ ⟨true, true⟩
        (some [(cacheKeyMaterial ["t"] "down" ["struct"], 0)]) 1 =
      { ret := Except.error "任务正在后台处理中，请稍候...",
        bg := some [(cacheKeyMaterial ["t"] "down" ["struct"], 0)], effects := [] } :=
  c4_duplicate_rejected _ _ _ _ _ (by decide) (by decide)

/-- C6: when the `Export` call succeeds, file artifacts exist, and
`archiver.Zip.Make` fails, the worker returns the error, the manifest
sidecar is not written, no intermediate file is removed, and the registry
entry is left in place. -/
theorem c6_zip_failure (env : BEnv) (key zipFile : String) (sqlFiles : List String)
    (sw dw : Option WriterKind) (exports : Registry)
    (h1 : env.exportOk = true) (h2 : env.zipOk = false) (h3 : sqlFiles ≠ []) :
    (∃ e, (workerM env key zipFile sqlFiles sw dw exports).ret = Except.error e) ∧
    (workerM env key zipFile sqlFiles sw dw exports).reg = exports ∧
    (∀ f, MEffect.removeFileEff f ∉ (workerM env key zipFile sqlFiles sw dw exports).effects) ∧
    (∀ p, MEffect.writeManifestEff p ∉ (workerM env key zipFile sqlFiles sw dw exports).effects) := by
  refine ⟨⟨"zip failed", ?_⟩, ?_, ?_, ?_⟩ <;> simp [workerM, h1, h2, h3]

/-- Witness for C6 at a concrete failing zip. -/
theorem c6_witness :
    (∃ e, (workerM ⟨true, false⟩ "k" "z.zip" ["a.sql"] none none [("k", 0)]).ret
      = Except.error e) ∧
    (workerM ⟨true, false⟩ "k" "z.zip" ["a.sql"] none none [("k", 0)]).reg = [("k", 0)] ∧
    (∀ f, MEffect.removeFileEff f
      ∉ (workerM ⟨true, false⟩ "k" "z.zip" ["a.sql"] none none [("k", 0)]).effects) ∧
    (∀ p, MEffect.writeManifestEff p
      ∉ (workerM ⟨true, false⟩ "k" "z.zip" ["a.sql"] none none [("k", 0)]).effects) :=
  c6_zip_failure ⟨true, false⟩ "k" "z.zip" ["a.sql"] none none [("k", 0)]
    rfl rfl (by decide)

/-- `strings.LastIndex` scan: with no colon in the scanned segment the
accumulator is returned unchanged. -/
theorem lastIndexColonAux_no_colon (l : List Char) (hl : ∀ c ∈ l, c ≠ ':') :
    ∀ (i : Nat) (acc : Int), lastIndexColonAux l i acc = acc := by
  induction l with
  | nil => intro i acc; rfl
  | cons c rest ih =>
    intro i acc
    have hc : ¬ c = ':' := hl c (by simp)
    simp only [lastIndexColonAux, if_neg hc]
    exact ih (fun x hx => hl x (by simp [hx])) _ _

/-- `strings.LastIndex` scan distributed over an append. -/
theorem lastIndexColonAux_append (l₁ l₂ : List Char) :
    ∀ (i : Nat) (acc : Int), lastIndexColonAux (l₁ ++ l₂) i acc
      = lastIndexColonAux l₂ (i + l₁.length) (lastIndexColonAux l₁ i acc) := by
  induction l₁ with
  | nil => intro i acc; simp [lastIndexColonAux]
  | cons c rest ih =>
    intro i acc
    simp only [List.cons_append, lastIndexColonAux, List.length_cons, List.append_eq]
    rw [ih]
    have harith : i + 1 + rest.length = i + (rest.length + 1) := by omega
    rw [harith]

/-- C10 (amended): `Export` splits the host at its last colon only when that
colon's index is strictly positive.  When the host has no colon, or only a
leading colon, the whole string is the host; when the split yields an empty
port (trailing colon), the prefix before the final colon — not the whole
string — is the host; in all three cases the port defaults to `3306`. -/
theorem c10_hostport_split (t u : List Char) :
    ((∀ c ∈ t, c ≠ ':') → hostPortOfL t = (t, "3306".toList)) ∧
    ((∀ c ∈ t, c ≠ ':') → hostPortOfL (':' :: t) = (':' :: t, "3306".toList)) ∧
    (u ≠ [] → hostPortOfL (u ++ [':']) = (u, "3306".toList)) := by
  refine ⟨?_, ?_, ?_⟩
  · intro h
    have h1 : lastIndexColon t = -1 := lastIndexColonAux_no_colon t h 0 (-1)
    simp [hostPortOfL, h1]
  · intro h
    have h1 : lastIndexColon (':' :: t) = 0 := by
      simp only [lastIndexColon, lastIndexColonAux, if_pos rfl]
      exact lastIndexColonAux_no_colon t h 1 0
    simp [hostPortOfL, h1]
  · intro h
    have h1 : lastIndexColon (u ++ [':']) = (u.length : Int) := by
      rw [lastIndexColon, lastIndexColonAux_append]
      simp [lastIndexColonAux]
    have h2 : (0 : Int) < (u.length : Int) := by
      cases u with
      | nil => exact absurd rfl h
      | cons a l => simp
    have h3 : (u ++ [':']).drop (u.length + 1) = [] := by
      apply List.drop_eq_nil_of_le
      simp
    have h4 : (u ++ [':']).take u.length = u := List.take_left u [':']
    simp [hostPortOfL, h1, h2, h3, h4]

/-- C10 counterexample: for the host `"db:"` the split yields an empty port,
and the code uses the prefix `"db"` — not the whole string — as the host. -/
theorem c10_counterexample :
    hostPortOfL "db:".toList = ("db".toList, "3306".toList) ∧
    ¬ (hostPortOfL "db:".toList).1 = "db:".toList := by decide

/-- Witness for C10 at concrete hosts. -/
theorem c10_witness :
    hostPortOfL "localhost".toList = ("localhost".toList, "3306".toList) ∧
    hostPortOfL (':' :: "3307".toList) = (':' :: "3307".toList, "3306".toList) ∧
    hostPortOfL ("db".toList ++ [':']) = ("db".toList, "3306".toList) :=
  ⟨(c10_hostport_split "localhost".toList "db".toList).1 (by decide),
   (c10_hostport_split "3307".toList "db".toList).2.1 (by decide),
   (c10_hostport_split "localhost".toList "db".toList).2.2 (by decide)⟩

/-- The `-d` scan of lines 142-148 always finds the structure/data flag at
index 5 of the pre-append template: the earlier flags all differ from
`-d` (the charset flag by length). -/
theorem typeOptIdx_baseArgs (cfg : DbAuth) (h p : String) :
    typeOptIdx (baseArgs cfg h p) = 5 := by
  have hne : ¬ ("--default-character-set=" ++ cfg.Charset) = "-d" := by
    intro hcontra
    have hlen := congrArg String.length hcontra
    rw [String.length_append] at hlen
    have e1 : "--default-character-set=".length = 24 := rfl
    have e2 : "-d".length = 2 := rfl
    rw [e1, e2] at hlen
    omega
  have hn1 : ¬ ("--single-transaction" : String) = "-d" := by decide
  have hn2 : ¬ ("--set-gtid-purged=OFF" : String) = "-d" := by decide
  have hn3 : ¬ ("--no-autocommit" : String) = "-d" := by decide
  have hn4 : ¬ ("--opt" : String) = "-d" := by decide
  simp only [typeOptIdx, baseArgs, typeOptIdxAux, if_neg hne, if_neg hn1, if_neg hn2,
    if_neg hn3, if_neg hn4]
  simp

/-- In the all-success environment every pass returns nil and spawns exactly
one subprocess, with exactly the supplied arguments, whatever the writer. -/
theorem runPass_allOk (args : List String) (w : WriterKind) (r s : Bool) :
    (runPass args w allOk r s).1 = Except.ok () ∧
    spawns (runPass args w allOk r s).2 = [args] := by
  cases w with
  | stream c => cases c <;> simp [runPass, allOk, cleanW, closable, spawns]
  | path p => cases r <;> cases s <;> simp [runPass, allOk, cleanW, closable, spawns]

/-- C2: for a non-empty table list and a recognized charset, the structure
pass spawns exactly one subprocess whose argument list is the fixed ordered
flag template (charset, single-transaction, GTID purge off, autocommit off,
`--opt`, the structure flag `-d`, host, port, user, password, database)
followed by the selected tables, each exactly once, in caller order. -/
theorem c2_subprocess_args (cfg : DbAuth) (tables : List String) (w : WriterKind) (r : Bool)
    (h1 : tables ≠ []) (h2 : cfg.Charset ∈ Charsets) :
    spawns (ExportM cfg tables (some w) none r ⟨allOk, allOk⟩).2
      = [["--default-character-set=" ++ cfg.Charset, "--single-transaction",
          "--set-gtid-purged=OFF", "--no-autocommit", "--opt", "-d",
          "-h" ++ (hostPortOf cfg.Host).1, "-P" ++ (hostPortOf cfg.Host).2,
          "-u" ++ cfg.Username, "-p" ++ cfg.Password, cfg.Db] ++ tables] := by
  have hrun := runPass_allOk
    (baseArgs cfg (hostPortOf cfg.Host).1 (hostPortOf cfg.Host).2 ++ tables) w r true
  simp only [ExportM, if_neg h1, h2, not_true_eq_false, if_false, baseArgs] at hrun ⊢
  exact hrun.2

/-- Witness for C2 at a concrete request. -/
theorem c2_witness :
    spawns (ExportM ⟨"localhost:3307", "root", "pw", "mydb", "utf8"⟩ ["users", "orders"]
        (some (WriterKind.stream true)) none true ⟨allOk, allOk⟩).2
      = [["--default-character-set=" ++ "utf8", "--single-transaction",
          "--set-gtid-purged=OFF", "--no-autocommit", "--opt", "-d",
          "-h" ++ (hostPortOf "localhost:3307").1, "-P" ++ (hostPortOf "localhost:3307").2,
          "-u" ++ "root", "-p" ++ "pw", "mydb"] ++ ["users", "orders"]] :=
  c2_subprocess_args ⟨"localhost:3307", "root", "pw", "mydb", "utf8"⟩ ["users", "orders"]
    (WriterKind.stream true) true (by decide) (by decide)

/-- C5: when both structure and data artifacts are requested, the structure
pass spawns first and the data pass second (strictly sequential trace
order), and the two argument lists are identical in every position except
index 5, which holds `-d` for the structure pass and `-t` for the data
pass. -/
theorem c5_two_passes (cfg : DbAuth) (tables : List String) (w0 w1 : WriterKind) (r : Bool)
    (h1 : tables ≠ []) (h2 : cfg.Charset ∈ Charsets) :
    ∃ a0 a1,
      spawns (ExportM cfg tables (some w0) (some w1) r ⟨allOk, allOk⟩).2 = [a0, a1] ∧
      a0.length = a1.length ∧
      a0[5]? = some "-d" ∧ a1[5]? = some "-t" ∧
      ∀ i, i ≠ 5 → a0[i]? = a1[i]? := by
  have hbase := typeOptIdx_baseArgs cfg (hostPortOf cfg.Host).1 (hostPortOf cfg.Host).2
  refine ⟨baseArgs cfg (hostPortOf cfg.Host).1 (hostPortOf cfg.Host).2 ++ tables,
    (baseArgs cfg (hostPortOf cfg.Host).1 (hostPortOf cfg.Host).2 ++ tables).set 5 "-t",
    ?_, ?_, ?_, ?_, ?_⟩
  · have hr0 := runPass_allOk
      (baseArgs cfg (hostPortOf cfg.Host).1 (hostPortOf cfg.Host).2 ++ tables) w0 r true
    have hr1 := runPass_allOk
      ((baseArgs cfg (hostPortOf cfg.Host).1 (hostPortOf cfg.Host).2 ++ tables).set 5 "-t")
      w1 r false
    simp only [ExportM, if_neg h1, h2, not_true_eq_false, if_false, hbase, hr0.1,
      spawns, List.filterMap_append] at hr0 hr1 ⊢
    rw [hr0.2, hr1.2]
    rfl
  · simp
  · have hlt : 5 < (baseArgs cfg (hostPortOf cfg.Host).1 (hostPortOf cfg.Host).2).length := by
      simp [baseArgs]
    rw [List.getElem?_append_left hlt]
    simp [baseArgs]
  · apply List.getElem?_set_eq_of_lt
    simp [baseArgs]
  · intro i hi
    rw [List.getElem?_set_ne (fun he => hi he.symm)]

/-- Witness for C5 at a concrete request. -/
theorem c5_witness :
    ∃ a0 a1,
      spawns (ExportM ⟨"h:33", "u", "pw", "mydb", "utf8"⟩ ["t1", "t2"]
          (some (WriterKind.stream true)) (some (WriterKind.path "/tmp/d.sql"))
          false ⟨allOk, allOk⟩).2 = [a0, a1] ∧
      a0.length = a1.length ∧
      a0[5]? = some "-d" ∧ a1[5]? = some "-t" ∧
      ∀ i, i ≠ 5 → a0[i]? = a1[i]? :=
  c5_two_passes ⟨"h:33", "u", "pw", "mydb", "utf8"⟩ ["t1", "t2"]
    (WriterKind.stream true) (WriterKind.path "/tmp/d.sql") false
    (by decide) (by decide)

/-- C9: whenever the writer of a pass is closable and writer resolution
succeeded (so the pass reaches the pipe/spawn/copy/wait stages), the writer
is closed on every exit path of the pass — pipe-creation failure, spawn
failure, copy failure, non-zero exit, reset failure, and success. -/
theorem c9_writer_closed (args : List String) (w : WriterKind) (env : PassEnv) (r s : Bool)
    (h1 : closable w = true) (h2 : resolves w env = true) :
    AEffect.closeWriterEff ∈ (runPass args w env r s).2 := by
  obtain ⟨dm, mo, co, po, so, cp, wa, re⟩ := env
  cases w with
  | stream c =>
    cases po <;> cases so <;> cases cp <;> cases wa <;> cases r <;> cases s <;> cases re <;>
      simp_all [runPass, cleanW, closable]
  | path p =>
    simp only [resolves] at h2
    cases dm <;> cases mo <;> cases co <;> simp_all [resolves] <;>
      cases po <;> cases so <;> cases cp <;> cases wa <;> cases r <;> cases s <;> cases re <;>
        simp_all [runPass, cleanW, closable]

/-- Witness for C9 at a concrete pass with a copy failure. -/
theorem c9_witness :
    AEffect.closeWriterEff ∈ (runPass ["mydb", "t"] (WriterKind.path "/tmp/x.sql")
      { dirMissing := true, mkdirOk := true, createOk := true, pipeOk := true,
        startOk := true, copyOk := false, waitOk := true, resetOk := true }
      true true).2 :=
  c9_writer_closed ["mydb", "t"] (WriterKind.path "/tmp/x.sql") _ true true rfl rfl

/-- The worker closure with no file artifacts (inline modes): it only runs
`Export` and leaves the export map untouched. -/
theorem workerM_nil_sqlFiles (env : BEnv) (key z : String) (sw dw : Option WriterKind)
    (ex : Registry) :
    (workerM env key z [] sw dw ex).effects = [MEffect.runExportEff sw dw] ∧
    (workerM env key z [] sw dw ex).reg = ex := by
  obtain ⟨eo, zo⟩ := env
  cases eo <;> simp [workerM]

/-- Characterization of `(*mySQL).Export` in the inline (`down` / `open`)
modes on a fresh fingerprint: the only effect is the `Export` invocation
with stream writers; the fingerprint entry is inserted into the export map
and never removed; the shared registry stays empty only when no export map
was published before the call. -/
theorem mExportM_inline (root : String) (inp : BInput) (env : BEnv) (bg : Option Registry)
    (fresh : Nat)
    (hdb : inp.dbName ≠ "")
    (hout : inp.output = "down" ∨ inp.output = "open")
    (hnew : hasKey (bg.getD []) (cacheKeyMaterial inp.tables inp.output inp.types) = false) :
    (mExportM root inp env bg fresh).effects
      = [MEffect.runExportEff
          (if "struct" ∈ inp.types then some (WriterKind.stream false) else none)
          (if "data" ∈ inp.types then some (WriterKind.stream false) else none)] ∧
    (mExportM root inp env bg fresh).bg
      = if bg.isSome then
          some (setReg (bg.getD []) (cacheKeyMaterial inp.tables inp.output inp.types) fresh)
        else none := by
  have hW := workerM_nil_sqlFiles env (cacheKeyMaterial inp.tables inp.output inp.types)
    (root ++ "/dbmanager/cache/export" ++ "/" ++ inp.dbName ++ "-sql-" ++ inp.nowTime ++ ".zip")
    (if "struct" ∈ inp.types then some (WriterKind.stream false) else none)
    (if "data" ∈ inp.types then some (WriterKind.stream false) else none)
    (setReg (bg.getD []) (cacheKeyMaterial inp.tables inp.output inp.types) fresh)
  simp only [mExportM, if_neg hdb, hnew, Bool.false_eq_true, if_false, if_pos hout]
  exact ⟨hW.1, by rw [hW.2]⟩

/-- C8 (amended): in an inline output mode (`down` or `open`) on a fresh
fingerprint, no file-backed writer, zip, file removal, or manifest write
occurs (no file is created on disk); however the fingerprint entry inserted
into the export map is not removed before the call returns: the shared
registry is unchanged only when it held no export map before the call, and
when a shared export map exists the entry is added to it and remains after
the call. -/
theorem c8_inline_no_files_entry_leaks (root : String) (inp : BInput) (env : BEnv)
    (bg : Option Registry) (fresh : Nat)
    (hdb : inp.dbName ≠ "")
    (hout : inp.output = "down" ∨ inp.output = "open")
    (hnew : hasKey (bg.getD []) (cacheKeyMaterial inp.tables inp.output inp.types) = false) :
    (∀ z fs, MEffect.zipMakeEff z fs ∉ (mExportM root inp env bg fresh).effects) ∧
    (∀ f, MEffect.removeFileEff f ∉ (mExportM root inp env bg fresh).effects) ∧
    (∀ m, MEffect.writeManifestEff m ∉ (mExportM root inp env bg fresh).effects) ∧
    (∀ sw dw, MEffect.runExportEff sw dw ∈ (mExportM root inp env bg fresh).effects →
      ∀ p, ¬ sw = some (WriterKind.path p) ∧ ¬ dw = some (WriterKind.path p)) ∧
    (bg = none → (mExportM root inp env bg fresh).bg = none) ∧
    (∀ reg, bg = some reg → (mExportM root inp env bg fresh).bg
      = some (setReg reg (cacheKeyMaterial inp.tables inp.output inp.types) fresh)) := by
  obtain ⟨hEff, hBg⟩ := mExportM_inline root inp env bg fresh hdb hout hnew
  rw [hEff, hBg]
  refine ⟨by simp, by simp, by simp, ?_, ?_, ?_⟩
  · intro sw dw hmem p
    simp only [List.mem_singleton, MEffect.runExportEff.injEq] at hmem
    obtain ⟨hsw, hdw⟩ := hmem
    subst hsw; subst hdw
    constructor
    · by_cases hs : "struct" ∈ inp.types <;> simp [hs]
    · by_cases hs : "data" ∈ inp.types <;> simp [hs]
  · intro hbgn; subst hbgn; simp
  · intro reg hbgr; subst hbgr; simp

/-- C8 counterexample: an inline (`down`) export performed while a shared
export map already exists (from an earlier background export) inserts its
fingerprint entry into the shared registry and does not remove it before
returning — the registry observed from outside the call has changed. -/
theorem c8_counterexample :
    (mExportM "/tmp" ⟨"d", ["t"], "down", ["struct"], "1"⟩ ⟨true, true⟩
      (some [("x", 0)]) 1).bg ≠ some [("x", 0)] ∧
    hasKey ((mExportM "/tmp" ⟨"d", ["t"], "down", ["struct"], "1"⟩ ⟨true, true⟩
      (some [("x", 0)]) 1).bg.getD []) (cacheKeyMaterial ["t"] "down" ["struct"]) = true := by
  decide

/-- Witness for C8 at a concrete inline call with no prior export map. -/
theorem c8_witness :
    (mExportM "/tmp" ⟨"d", ["t"], "open", ["struct"], "1"⟩ ⟨true, true⟩ none 1).bg = none :=
  (c8_inline_no_files_entry_leaks "/tmp" ⟨"d", ["t"], "open", ["struct"], "1"⟩ ⟨true, true⟩
    none 1 (by decide) (Or.inr rfl) (by decide)).2.2.2.2.1 rfl

/-- Boolean prefix test versus the propositional order. -/
theorem isPrefixOf_eq_iff (l₁ l₂ : List Char) : l₁.isPrefixOf l₂ = true ↔ l₁ <+: l₂ :=
  List.isPrefixOf_iff_prefix

/-- A successful match starts with the literal ` AUTO_INCREMENT=` and the
remainder is the input after the literal, the digit run, and the
whitespace run. -/
theorem tryMatch_some_elim {s rem : List Char} (h : tryMatch s = some rem) :
    acSpat <+: s ∧ rem = ((s.drop 16).dropWhile isGoDigit).dropWhile isGoSpace := by
  by_cases hp : acSpat.isPrefixOf s = true
  · rw [tryMatch, if_pos hp] at h
    injection h with h
    exact ⟨(isPrefixOf_eq_iff _ _).1 hp, h.symm⟩
  · rw [tryMatch, if_neg hp] at h
    exact absurd h (by simp)

/-- A failed match means the literal is not a prefix. -/
theorem tryMatch_none_elim {s : List Char} (h : tryMatch s = none) : ¬ acSpat <+: s := by
  intro hp
  rw [tryMatch, if_pos ((isPrefixOf_eq_iff _ _).2 hp)] at h
  exact absurd h (by simp)

/-- Conversely, if the literal is not a prefix the match fails. -/
theorem tryMatch_none_of {s : List Char} (h : ¬ acSpat <+: s) : tryMatch s = none := by
  rw [tryMatch, if_neg]
  intro hp
  exact h ((isPrefixOf_eq_iff _ _).1 hp)

/-- A match consumes at least the 16-character literal. -/
theorem tryMatch_some_len {s rem : List Char} (h : tryMatch s = some rem) :
    16 + rem.length ≤ s.length := by
  obtain ⟨hpre, hrem⟩ := tryMatch_some_elim h
  obtain ⟨t, ht⟩ := hpre
  have h16 : s.length = 16 + t.length := by
    rw [← ht, List.length_append]
    rfl
  have hr1 : (((s.drop 16).dropWhile isGoDigit).dropWhile isGoSpace).length
      ≤ (s.drop 16).length :=
    le_trans ((List.dropWhile_suffix isGoSpace).length_le)
      ((List.dropWhile_suffix isGoDigit).length_le)
  have hr2 : (s.drop 16).length = s.length - 16 := List.length_drop 16 s
  rw [hrem]
  omega

/-- The scanner on the empty input, for any fuel. -/
theorem stripFuel_nil (n : Nat) : stripFuel n [] = [] := by cases n <;> rfl

/-- Fuel irrelevance: any two sufficient fuels agree. -/
theorem stripFuel_congr : ∀ (n m : Nat) (s : List Char),
    s.length ≤ n → s.length ≤ m → stripFuel n s = stripFuel m s := by
  intro n
  induction n with
  | zero =>
    intro m s hn _
    have hs : s = [] := List.eq_nil_of_length_eq_zero (Nat.le_zero.mp hn)
    subst hs
    rw [stripFuel_nil, stripFuel_nil]
  | succ n ih =>
    intro m s hn hm
    cases s with
    | nil => rw [stripFuel_nil, stripFuel_nil]
    | cons c rest =>
      cases m with
      | zero => simp at hm
      | succ m =>
        show (match tryMatch (c :: rest) with
              | some rem => ' ' :: stripFuel n rem
              | none => c :: stripFuel n rest)
            = (match tryMatch (c :: rest) with
              | some rem => ' ' :: stripFuel m rem
              | none => c :: stripFuel m rest)
        cases htm : tryMatch (c :: rest) with
        | some rem =>
          have hlen := tryMatch_some_len htm
          simp only [List.length_cons] at hn hm hlen
          exact congrArg (' ' :: ·) (ih m rem (by omega) (by omega))
        | none =>
          simp only [List.length_cons] at hn hm
          exact congrArg (c :: ·) (ih m rest (by omega) (by omega))

/-- Unfold `stripAuto` on a matching head. -/
theorem strip_cons_match {c : Char} {rest rem : List Char}
    (h : tryMatch (c :: rest) = some rem) :
    stripAuto (c :: rest) = ' ' :: stripAuto rem := by
  have hlen := tryMatch_some_len h
  show (match tryMatch (c :: rest) with
        | some r => ' ' :: stripFuel rest.length r
        | none => c :: stripFuel rest.length rest) = ' ' :: stripAuto rem
  rw [h]
  exact congrArg (' ' :: ·)
    (stripFuel_congr rest.length rem.length rem (by simp at hlen ⊢; omega) le_rfl)

/-- Unfold `stripAuto` on a non-matching head. -/
theorem strip_cons_nomatch {c : Char} {rest : List Char}
    (h : tryMatch (c :: rest) = none) :
    stripAuto (c :: rest) = c :: stripAuto rest := by
  show (match tryMatch (c :: rest) with
        | some r => ' ' :: stripFuel rest.length r
        | none => c :: stripFuel rest.length rest) = c :: stripAuto rest
  rw [h]
  rfl

/-- Inserting a head preserves containment. -/
theorem isInfixCons {l₁ l₂ : List Char} (a : Char) (h : l₁ <:+: l₂) : l₁ <:+: a :: l₂ := by
  obtain ⟨s, t, rfl⟩ := h
  exact ⟨a :: s, t, by simp⟩

/-- Strings without any ` AUTO_INCREMENT=` occurrence are fixed points of
the transform. -/
theorem stripAuto_eq_self_aux : ∀ (n : Nat) (s : List Char),
    s.length ≤ n → ¬ acSpat <:+: s → stripAuto s = s := by
  intro n
  induction n with
  | zero =>
    intro s hn _
    have hs : s = [] := List.eq_nil_of_length_eq_zero (Nat.le_zero.mp hn)
    subst hs
    rfl
  | succ n ih =>
    intro s hn hno
    cases s with
    | nil => rfl
    | cons c rest =>
      cases htm : tryMatch (c :: rest) with
      | some rem =>
        exact absurd (List.IsPrefix.isInfix (tryMatch_some_elim htm).1) hno
      | none =>
        rw [strip_cons_nomatch htm]
        simp only [List.length_cons] at hn
        rw [ih rest (by omega) (fun hc => hno (isInfixCons c hc))]

/-- Strings without any ` AUTO_INCREMENT=` occurrence are fixed points. -/
theorem stripAuto_eq_self_of_no_occ {s : List Char} (h : ¬ acSpat <:+: s) :
    stripAuto s = s :=
  stripAuto_eq_self_aux s.length s le_rfl h

/-- A space-free prefix of the transform's output is already a prefix of
its input (every replacement contributes a space). -/
theorem stripAuto_reflect_space_free_aux : ∀ (n : Nat) (s p : List Char),
    s.length ≤ n → (∀ a ∈ p, a ≠ ' ') → p <+: stripAuto s → p <+: s := by
  intro n
  induction n with
  | zero =>
    intro s p hn _ hpre
    have hs : s = [] := List.eq_nil_of_length_eq_zero (Nat.le_zero.mp hn)
    subst hs
    exact hpre
  | succ n ih =>
    intro s p hn hfree hpre
    cases s with
    | nil => exact hpre
    | cons c rest =>
      cases p with
      | nil => exact ⟨c :: rest, rfl⟩
      | cons a p₁ =>
        cases htm : tryMatch (c :: rest) with
        | some rem =>
          rw [strip_cons_match htm] at hpre
          obtain ⟨ha, _⟩ := List.cons_prefix_cons.mp hpre
          exact absurd ha (hfree a (by simp))
        | none =>
          rw [strip_cons_nomatch htm] at hpre
          obtain ⟨ha, hp₁⟩ := List.cons_prefix_cons.mp hpre
          simp only [List.length_cons] at hn
          have hp₂ : p₁ <+: rest :=
            ih rest p₁ (by omega) (fun x hx => hfree x (by simp [hx])) hp₁
          exact List.cons_prefix_cons.mpr ⟨ha, hp₂⟩

/-- Dropping a head cannot increase the occurrence count. -/
theorem occCount_cons_le (c : Char) (rest : List Char) :
    occCount rest ≤ occCount (c :: rest) := by
  simp only [occCount]
  split <;> omega

/-- Occurrences of a suffix are occurrences of the whole. -/
theorem occCount_append_le (u z : List Char) : occCount z ≤ occCount (u ++ z) := by
  induction u with
  | nil => simp
  | cons c rest ih =>
    simp only [List.cons_append, occCount, List.append_eq]
    split <;> omega

/-- A list headed by the literal has strictly more occurrences than its
tail part. -/
theorem occCount_head_append (a : Char) (t z : List Char)
    (hp : acPat.isPrefixOf (a :: (t ++ z)) = true) :
    1 + occCount z ≤ occCount (a :: (t ++ z)) := by
  simp only [occCount, hp, if_true]
  have := occCount_append_le t z
  omega

/-- Prepending the literal adds an occurrence. -/
theorem occCount_pat_append (z : List Char) :
    1 + occCount z ≤ occCount (acPat ++ z) := by
  have e : acPat ++ z = 'A' :: ("UTO_INCREMENT=".toList ++ z) := rfl
  rw [e]
  apply occCount_head_append
  rw [← e]
  exact (isPrefixOf_eq_iff _ _).2 ⟨z, rfl⟩

/-- Containment of the literal forces a positive occurrence count. -/
theorem occCount_pos_of_contains {rem : List Char} (h : acPat <:+: rem) :
    1 ≤ occCount rem := by
  obtain ⟨u, v, rfl⟩ := h
  have h1 := occCount_pat_append v
  have h2 := occCount_append_le u (acPat ++ v)
  rw [List.append_assoc]
  omega

/-- The literal is contained in the spaced literal. -/
theorem acPat_in_acSpat : acPat <:+: acSpat := ⟨[' '], [], by decide⟩

/-- Main induction for the amended C7: with at most one occurrence of
`AUTO_INCREMENT=`, the transform is idempotent. -/
theorem strip_idem_aux : ∀ (n : Nat) (s : List Char), s.length ≤ n →
    occCount s ≤ 1 → stripAuto (stripAuto s) = stripAuto s := by
  intro n
  induction n with
  | zero =>
    intro s hn _
    have hs : s = [] := List.eq_nil_of_length_eq_zero (Nat.le_zero.mp hn)
    subst hs
    rfl
  | succ n ih =>
    intro s hn hocc
    cases s with
    | nil => rfl
    | cons c rest =>
      cases htm : tryMatch (c :: rest) with
      | some rem =>
        obtain ⟨hpre, hrem⟩ := tryMatch_some_elim htm
        obtain ⟨t, ht⟩ := hpre
        have h16 : acSpat.length = 16 := rfl
        have hdrop : (c :: rest).drop 16 = t := by
          rw [← ht, ← h16]
          exact List.drop_left acSpat t
        have hsuffix : rem <:+ t := by
          rw [hrem, hdrop]
          exact (List.dropWhile_suffix isGoSpace).trans (List.dropWhile_suffix isGoDigit)
        obtain ⟨mid, hmid⟩ := hsuffix
        have hshape : c :: rest = ' ' :: (acPat ++ (mid ++ rem)) := by
          rw [← ht, ← hmid]
          rfl
        have hnorem : ¬ acPat <:+: rem := by
          intro hcont
          have h1 := occCount_pos_of_contains hcont
          have h2 := occCount_pat_append (mid ++ rem)
          have h3 := occCount_append_le mid rem
          have h4 : occCount (acPat ++ (mid ++ rem)) ≤ occCount (c :: rest) := by
            rw [hshape]
            exact occCount_cons_le _ _
          omega
        have hnospat : ¬ acSpat <:+: rem := fun hcont =>
          hnorem (List.IsInfix.trans acPat_in_acSpat hcont)
        have hremfix : stripAuto rem = rem := stripAuto_eq_self_of_no_occ hnospat
        rw [strip_cons_match htm, hremfix]
        have htm2 : tryMatch (' ' :: rem) = none := by
          apply tryMatch_none_of
          intro hcont
          have hc2 : ' ' :: acPat <+: ' ' :: rem := hcont
          exact hnorem (List.IsPrefix.isInfix (List.cons_prefix_cons.mp hc2).2)
        rw [strip_cons_nomatch htm2, hremfix]
      | none =>
        have hocc2 : occCount rest ≤ 1 := le_trans (occCount_cons_le c rest) hocc
        simp only [List.length_cons] at hn
        have ihrest := ih rest (by omega) hocc2
        rw [strip_cons_nomatch htm]
        have htm2 : tryMatch (c :: stripAuto rest) = none := by
          apply tryMatch_none_of
          intro hcont
          have hc2 : ' ' :: acPat <+: c :: stripAuto rest := hcont
          obtain ⟨hceq, hpre2⟩ := List.cons_prefix_cons.mp hc2
          have hfree : ∀ a ∈ acPat, a ≠ ' ' := by decide
          have hpre3 : acPat <+: rest :=
            stripAuto_reflect_space_free_aux rest.length rest acPat le_rfl hfree hpre2
          have hsp : acSpat <+: c :: rest := by
            show ' ' :: acPat <+: c :: rest
            exact List.cons_prefix_cons.mpr ⟨hceq, hpre3⟩
          exact (tryMatch_none_elim htm) hsp
        rw [strip_cons_nomatch htm2, ihrest]

/-- C7 (amended): the auto-increment-strip transform is idempotent on every
input containing at most one occurrence of `AUTO_INCREMENT=`.  It is not
idempotent in general: when two matches are adjacent, the greedy trailing
whitespace of the first match consumes the space the second occurrence
needs, so one application can leave an ` AUTO_INCREMENT=<n>` substring that
only a further application removes. -/
theorem c7_strip_idempotent_single (s : List Char) (h : occCount s ≤ 1) :
    stripAuto (stripAuto s) = stripAuto s :=
  strip_idem_aux s.length s le_rfl h

/-- C7 counterexample: on ` AUTO_INCREMENT=1 AUTO_INCREMENT=2` one
application leaves the substring `AUTO_INCREMENT=2` in the output, and a
second application changes the result, so the transform is neither
remnant-free after one pass nor idempotent. -/
theorem c7_counterexample :
    ¬ stripAuto (stripAuto " AUTO_INCREMENT=1 AUTO_INCREMENT=2".toList)
        = stripAuto " AUTO_INCREMENT=1 AUTO_INCREMENT=2".toList ∧
    ¬ occCount (stripAuto " AUTO_INCREMENT=1 AUTO_INCREMENT=2".toList) = 0 := by
  exact ⟨by decide, by decide⟩

/-- Witness for C7 at a concrete single-occurrence input. -/
theorem c7_witness :
    occCount "x AUTO_INCREMENT=42 ;".toList ≤ 1 ∧
    stripAuto (stripAuto "x AUTO_INCREMENT=42 ;".toList)
      = stripAuto "x AUTO_INCREMENT=42 ;".toList :=
  ⟨by decide, c7_strip_idempotent_single _ (by decide)⟩

end NgingExport
